import Mathlib

/-!
Verification development for the youBot analytical inverse-kinematics solver
(`ArmAnalyticalInverseKinematics`).  The repository ships only the header
`arm_analytical_inverse_kinematics.h`; the method bodies are modelled from the
specification's component contracts (PoseDecomposer, JointSolver,
LimitValidator, SolutionEnumerator).

The scalar type is a linear ordered field `K`; the transcendental functions
(atan2, acos, sqrt, cos, sin) and the constant pi are supplied through a
`Trig` structure, so every structural statement is proved for all
interpretations of those functions, and the real-number interpretation
`realTrig` is used where a claim genuinely depends on real trigonometry.
-/

namespace YoubotKinematics

/-- Goal pose: position (x, y, z) plus orientation as roll, pitch, yaw.
Modelled from the spec: the Pose data model of section 3 (the `KDL::Frame`
argument of `CartToJnt` in the header; the frame type itself is external). -/
structure Pose (K : Type) where
  x : K
  y : K
  z : K
  roll : K
  pitch : K
  yaw : K

/-- Interpretation of the transcendental functions used by the solver.
Fields, in order: pi, atan2, acos, sqrt, cos, sin. -/
structure Trig (K : Type) where
  pi : K
  atan2 : K → K → K
  acos : K → K
  sqrt : K → K
  cos : K → K
  sin : K → K

/-- Physical and numerical constants of the solver.  `L2` and `L3` are the two
planar link lengths, `Lwrist` the reach offset induced by the desired pitch
(the wrist length), `almostPlusOne` / `almostMinusOne` the near-unity clamp
thresholds of the header (lines 119-120), and `acosTol` the materially wider
tolerance outside which infeasibility is declared instead of clamping. -/
structure ArmParams (K : Type) where
  L2 : K
  L3 : K
  Lwrist : K
  almostPlusOne : K
  almostMinusOne : K
  acosTol : K

/-- The solver object: it holds the per-joint minimum and maximum limits given
at construction (header lines 100-108). -/
structure ArmAnalyticalInverseKinematics (K : Type) where
  minAngles : List K
  maxAngles : List K

variable {K : Type} [LinearOrderedField K]

/-- Validity of the limit sequences handed to the constructor.
Modelled from the spec: construction (section 6) requires both sequences to
have length 5 with min ≤ max per entry. -/
def limitsValid (minAngles maxAngles : List K) : Bool :=
  decide (minAngles.length = 5) && decide (maxAngles.length = 5) &&
    (List.range 5).all fun i => decide (minAngles.getD i 0 ≤ maxAngles.getD i 0)

/-- Construction of the solver.  Modelled from the spec: the constructor
(header lines 23-25) is a construction-time error on invalid limit sequences,
so it is embedded as an `Option`-returning smart constructor; a `some` result
is the successfully constructed, thereafter frozen, solver. -/
def construct (minAngles maxAngles : List K) :
    Option (ArmAnalyticalInverseKinematics K) :=
  if limitsValid minAngles maxAngles then
    some ⟨minAngles, maxAngles⟩
  else
    none

/-- LimitValidator.  Modelled from the spec: `isSolutionValid` (header lines
46-53) is a pure predicate, true iff the solution has all 5 angles inside the
configured closed intervals; an empty (sentinel) input is rejected. -/
def isSolutionValid (minAngles maxAngles solution : List K) : Bool :=
  decide (solution.length = 5) &&
    (List.range 5).all fun i =>
      decide (minAngles.getD i 0 ≤ solution.getD i 0) &&
      decide (solution.getD i 0 ≤ maxAngles.getD i 0)

/-- PoseDecomposer.  Modelled from the spec:
`ProjectGoalOrientationIntoArmSubspace` (header line 96) absorbs the yaw into
the base heading choice, leaving position and roll/pitch unchanged. -/
def projectGoal (g : Pose K) : Pose K :=
  ⟨g.x, g.y, g.z, g.roll, g.pitch, 0⟩

/-- Clamp of an inverse-cosine argument to the near-unity thresholds.
Modelled from the spec: arguments beyond `almostPlusOne` (resp. below
`almostMinusOne`) are replaced by the threshold to absorb floating-point
overshoot at the reachability boundary (header lines 115-120). -/
def clampCos (P : ArmParams K) (a : K) : K :=
  if a > P.almostPlusOne then P.almostPlusOne
  else if a < P.almostMinusOne then P.almostMinusOne
  else a

/-- Signed planar radius of the goal.  Modelled from the spec: joint 1 looks
only at the x-y-plane, and the joint-1 branch flag mirrors the subsequent
planar geometry. -/
def planarRadius (T : Trig K) (g : Pose K) (o1 : Bool) : K :=
  if o1 then -(T.sqrt (g.x ^ 2 + g.y ^ 2)) else T.sqrt (g.x ^ 2 + g.y ^ 2)

/-- Horizontal coordinate of the reduced planar target, after subtracting the
reach offset induced by the desired pitch (backward along the wrist axis). -/
def planarX (P : ArmParams K) (T : Trig K) (g : Pose K) (o1 : Bool) : K :=
  planarRadius T g o1 - P.Lwrist * T.cos g.pitch

/-- Vertical coordinate of the reduced planar target. -/
def planarZ (P : ArmParams K) (T : Trig K) (g : Pose K) : K :=
  g.z - P.Lwrist * T.sin g.pitch

/-- Planar distance D to the reduced target of the 2-link sub-problem. -/
def reducedDist (P : ArmParams K) (T : Trig K) (g : Pose K) (o1 : Bool) : K :=
  T.sqrt (planarX P T g o1 ^ 2 + planarZ P T g ^ 2)

/-- Law-of-cosines argument for the elbow joint (joint 3). -/
def cosElbow (P : ArmParams K) (T : Trig K) (g : Pose K) (o1 : Bool) : K :=
  (reducedDist P T g o1 ^ 2 - P.L2 ^ 2 - P.L3 ^ 2) / (2 * P.L2 * P.L3)

/-- Law-of-cosines argument for the inner-triangle correction of joint 2. -/
def cosShoulder (P : ArmParams K) (T : Trig K) (g : Pose K) (o1 : Bool) : K :=
  (reducedDist P T g o1 ^ 2 + P.L2 ^ 2 - P.L3 ^ 2) /
    (2 * P.L2 * reducedDist P T g o1)

/-- Sign selecting elbow-up versus elbow-down from the joint-3 branch flag. -/
def elbowSign (o3 : Bool) : K :=
  if o3 then -1 else 1

/-- JointSolver.  Modelled from the spec: the private `ik` method (header
lines 93-94) computes, for one branch selector, either an empty joint vector
(geometric infeasibility of this branch) or the five joint angles:
joint 1 from atan2 on the x-y-plane (plus pi when the branch flag is set),
joints 2 and 3 from the planar 2-link problem via the law of cosines with the
near-unity clamp, joint 4 as the remainder making joints 2+3+4 sum to the
requested pitch, and joint 5 as the requested roll (plus pi when the branch
flag is set). -/
def ik (P : ArmParams K) (T : Trig K) (g : Pose K) (o1 o3 o5 : Bool) :
    List K :=
  if reducedDist P T g o1 > P.L2 + P.L3 ∨
      reducedDist P T g o1 < |P.L2 - P.L3| then
    []
  else if cosElbow P T g o1 > 1 + P.acosTol ∨
      cosElbow P T g o1 < -(1 + P.acosTol) then
    []
  else
    let j1 := if o1 then T.atan2 g.y g.x + T.pi else T.atan2 g.y g.x
    let j3 := elbowSign o3 * T.acos (clampCos P (cosElbow P T g o1))
    let j2 := T.atan2 (planarX P T g o1) (planarZ P T g) -
      elbowSign o3 * T.acos (clampCos P (cosShoulder P T g o1))
    let j4 := g.pitch - (j2 + j3)
    let j5 := if o5 then g.roll + T.pi else g.roll
    [j1, j2, j3, j4, j5]

/-- Keep condition of the SolutionEnumerator: a branch result is kept exactly
when it is non-empty and accepted by the limit validator. -/
def keepSolution (minAngles maxAngles : List K) (s : List K) : Bool :=
  !s.isEmpty && isSolutionValid minAngles maxAngles s

/-- Branch sweep of the SolutionEnumerator.  Modelled from the spec:
`CartToJnt` (header lines 35-37) sweeps the 8 branch selectors with three
nested loops in a fixed order (joint-1 flag outermost, joint-3 flag middle,
joint-5 flag innermost), keeping each non-empty, limit-valid result in loop
order. -/
def sweepBranches (P : ArmParams K) (T : Trig K) (minAngles maxAngles : List K)
    (proj : Pose K) : List (List K) :=
  [false, true].foldl (fun acc1 o1 =>
    [false, true].foldl (fun acc2 o3 =>
      [false, true].foldl (fun acc3 o5 =>
        let s := ik P T proj o1 o3 o5
        if keepSolution minAngles maxAngles s then acc3 ++ [s]
        else acc3) acc2) acc1) []

/-- SolutionEnumerator entry point.  Modelled from the spec: `CartToJnt`
projects the goal, runs the branch sweep, overwrites the output sequence with
the kept solutions, and returns status 0 when at least one solution was kept
and the negative failure code otherwise.  The seed configuration `qInit` is
advisory and the prior contents `qOutPrev` of the output parameter are
overwritten. -/
def cartToJnt (P : ArmParams K) (T : Trig K)
    (a : ArmAnalyticalInverseKinematics K) (qInit : List K) (pIn : Pose K)
    (qOutPrev : List (List K)) : Int × List (List K) :=
  let sols := sweepBranches P T a.minAngles a.maxAngles (projectGoal pIn)
  (if sols.isEmpty then (-1 : Int) else 0, sols)

/-- The fixed enumeration order of the 8 branch selectors: joint-1 flag
outermost, joint-3 flag middle, joint-5 flag innermost. -/
def branchOrder : List (Bool × Bool × Bool) :=
  [(false, false, false), (false, false, true),
   (false, true, false), (false, true, true),
   (true, false, false), (true, false, true),
   (true, true, false), (true, true, true)]

/-- Declarative description of the kept solutions, following the spec's words:
the branch results in enumeration order, filtered by the keep condition. -/
def keptSolutionsSpec (P : ArmParams K) (T : Trig K)
    (a : ArmAnalyticalInverseKinematics K) (pIn : Pose K) :
    List (List K) :=
  (branchOrder.map fun b => ik P T (projectGoal pIn) b.1 b.2.1 b.2.2).filter
    (keepSolution a.minAngles a.maxAngles)

/-- Real-number interpretation of the transcendental functions: pi, atan2 as
the complex argument, arccos, the real square root, cosine and sine. -/
noncomputable def realTrig : Trig ℝ :=
  ⟨Real.pi, fun y x => Complex.arg ⟨x, y⟩, Real.arccos, Real.sqrt,
   Real.cos, Real.sin⟩

/-- Rational test interpretation of the transcendental functions, used to
evaluate the structural theorems on concrete inputs. -/
def trigQ : Trig ℚ :=
  ⟨355 / 113, fun _ _ => 0, fun x => x, fun x => x, fun _ => 1, fun _ => 0⟩

/-- Concrete interior-of-annulus parameter set for evaluation: L2 = 3/5,
L3 = 2/5, no wrist offset, clamp thresholds 99/100, tolerance 1/10. -/
def paramsQ : ArmParams ℚ :=
  ⟨3 / 5, 2 / 5, 0, 99 / 100, -(99 / 100), 1 / 10⟩

/-- Concrete solver instance with limits [-4, 4] on every joint. -/
def armQ : ArmAnalyticalInverseKinematics ℚ :=
  ⟨[-4, -4, -4, -4, -4], [4, 4, 4, 4, 4]⟩

/-- Concrete reachable goal in the interior of the annulus of `paramsQ` under
the test interpretation `trigQ`. -/
def poseNearQ : Pose ℚ :=
  ⟨4 / 5, 0, 0, 0, 0, 0⟩

/-- Concrete goal whose reduced planar distance under `trigQ` equals exactly
L2 + L3 of `paramsQ`. -/
def poseEdgeQ : Pose ℚ :=
  ⟨1, 0, 0, 0, 0, 0⟩

/-- Concrete goal far outside the annulus of `paramsQ` under `trigQ`. -/
def poseFarQ : Pose ℚ :=
  ⟨10, 0, 0, 0, 0, 0⟩

/-- Real-number parameter set: L2 = L3 = 1, no wrist offset, the near-unity
clamp thresholds 9999999 / 10000000 and tolerance 1 / 1000. -/
noncomputable def paramsR : ArmParams ℝ :=
  ⟨1, 1, 0, 9999999 / 10000000, -(9999999 / 10000000), 1 / 1000⟩

/-- Real-number goal at planar distance exactly L2 + L3 = 2 of `paramsR`. -/
def poseEdgeR : Pose ℝ :=
  ⟨2, 0, 0, 0, 0, 0⟩

/-- Folding a keep-or-skip accumulation over a list is appending the filtered
image of the list. -/
theorem foldl_keepAppend {α β : Type} (f : α → β) (kp : β → Bool) (l : List α) :
    ∀ acc : List β,
      l.foldl (fun a x => if kp (f x) then a ++ [f x] else a) acc
        = acc ++ (l.map f).filter kp := by
  induction l with
  | nil =>
    intro acc
    simp
  | cons b t ih =>
    intro acc
    by_cases h : kp (f b)
    · simp [List.foldl_cons, h, ih, List.filter_cons]
    · simp [List.foldl_cons, h, ih, List.filter_cons]

/-- Flattening of the nested branch sweep: it produces exactly the
declaratively filtered enumeration of the 8 branches. -/
theorem sweepBranches_eq (P : ArmParams K) (T : Trig K)
    (minAngles maxAngles : List K) (proj : Pose K) :
    sweepBranches P T minAngles maxAngles proj =
      (branchOrder.map fun b => ik P T proj b.1 b.2.1 b.2.2).filter
        (keepSolution minAngles maxAngles) := by
  have h5 : ∀ (o1 o3 : Bool) (acc : List (List K)),
      [false, true].foldl (fun acc3 o5 =>
          if keepSolution minAngles maxAngles (ik P T proj o1 o3 o5) then
            acc3 ++ [ik P T proj o1 o3 o5]
          else acc3) acc
        = acc ++ ([ik P T proj o1 o3 false,
            ik P T proj o1 o3 true].filter (keepSolution minAngles maxAngles)) := by
    intro o1 o3 acc
    simpa using foldl_keepAppend (fun o5 => ik P T proj o1 o3 o5)
      (keepSolution minAngles maxAngles) [false, true] acc
  unfold sweepBranches
  simp only [h5]
  simp only [List.foldl_cons, List.foldl_nil, List.nil_append,
    List.append_assoc]
  rw [← List.filter_append, ← List.filter_append, ← List.filter_append]
  simp [branchOrder]

/-- Internal form of the SolutionEnumerator correctness: `cartToJnt` returns
the declaratively filtered enumeration together with status 0 precisely when
something was kept. -/
theorem cartToJnt_eq (P : ArmParams K) (T : Trig K)
    (a : ArmAnalyticalInverseKinematics K) (qInit : List K) (pIn : Pose K)
    (prev : List (List K)) :
    cartToJnt P T a qInit pIn prev =
      (if keptSolutionsSpec P T a pIn = [] then (-1 : Int) else 0,
        keptSolutionsSpec P T a pIn) := by
  unfold cartToJnt keptSolutionsSpec
  rw [sweepBranches_eq]
  generalize (branchOrder.map fun b => ik P T (projectGoal pIn) b.1 b.2.1 b.2.2).filter
      (keepSolution a.minAngles a.maxAngles) = L
  cases L <;> simp

/-- C1: for every seed configuration and goal pose, `cartToJnt` evaluates
exactly the 8 branch-selector combinations in the fixed order with the
joint-1 flag outermost, the joint-3 flag middle and the joint-5 flag
innermost; it keeps a branch's result exactly when that result is non-empty
and accepted by the limit validator; it returns status 0 if at least one
result was kept and a negative status with an empty solution sequence
otherwise, and the kept solutions appear in enumeration order. -/
theorem C1_cartToJnt_enumeration (P : ArmParams K) (T : Trig K)
    (a : ArmAnalyticalInverseKinematics K) (qInit : List K) (pIn : Pose K)
    (prev : List (List K)) :
    cartToJnt P T a qInit pIn prev =
      (if keptSolutionsSpec P T a pIn = [] then (-1 : Int) else 0,
        keptSolutionsSpec P T a pIn) :=
  cartToJnt_eq P T a qInit pIn prev

/-- C2: for every input pose and every branch-selector combination, the
per-branch solver `ik` returns either an empty joint-angle vector or a vector
of exactly 5 angles; it never returns a vector of any other length. -/
theorem C2_ik_empty_or_five (P : ArmParams K) (T : Trig K) (g : Pose K)
    (o1 o3 o5 : Bool) :
    ik P T g o1 o3 o5 = [] ∨ (ik P T g o1 o3 o5).length = 5 := by
  unfold ik
  split_ifs <;> simp

/-- C4: `isSolutionValid` is a pure predicate, true if and only if the input
vector has 5 angles and every angle lies within the configured closed
interval; in particular it is false for an empty (sentinel) input. -/
theorem C4_isSolutionValid_iff (minAngles maxAngles s : List K) :
    (isSolutionValid minAngles maxAngles s = true ↔
      s.length = 5 ∧ ∀ i, i < 5 →
        minAngles.getD i 0 ≤ s.getD i 0 ∧ s.getD i 0 ≤ maxAngles.getD i 0) ∧
    isSolutionValid minAngles maxAngles ([] : List K) = false := by
  constructor
  · simp [isSolutionValid, List.all_eq_true, List.mem_range]
  · simp [isSolutionValid]

/-- C7: the result of `cartToJnt`, both the integer status and the sequence
of solutions including their order, is independent of the seed joint
configuration. -/
theorem C7_seed_independent (P : ArmParams K) (T : Trig K)
    (a : ArmAnalyticalInverseKinematics K) (q1 q2 : List K) (pIn : Pose K)
    (prev : List (List K)) :
    cartToJnt P T a q1 pIn prev = cartToJnt P T a q2 pIn prev := rfl

/-- C8: construction from limit sequences that are not both of length 5, or
in which some entry has min above max, is rejected deterministically at
construction time; a successfully constructed solver always holds limits of
length 5 with min at most max per joint. -/
theorem C8_construction_guard (minAngles maxAngles : List K) :
    ((construct minAngles maxAngles).isSome = true ↔
      minAngles.length = 5 ∧ maxAngles.length = 5 ∧
        ∀ i, i < 5 → minAngles.getD i 0 ≤ maxAngles.getD i 0) ∧
    ∀ b, construct minAngles maxAngles = some b →
      b.minAngles.length = 5 ∧ b.maxAngles.length = 5 ∧
        ∀ i, i < 5 → b.minAngles.getD i 0 ≤ b.maxAngles.getD i 0 := by
  have hval : limitsValid minAngles maxAngles = true ↔
      minAngles.length = 5 ∧ maxAngles.length = 5 ∧
        ∀ i, i < 5 → minAngles.getD i 0 ≤ maxAngles.getD i 0 := by
    simp [limitsValid, List.all_eq_true, List.mem_range, and_assoc]
  have hsome : (construct minAngles maxAngles).isSome
      = limitsValid minAngles maxAngles := by
    unfold construct
    split_ifs with h
    · simp [h]
    · simp [Bool.not_eq_true] at h
      simp [h]
  refine ⟨by rw [hsome]; exact hval, ?_⟩
  intro b hb
  unfold construct at hb
  split_ifs at hb with h
  obtain ⟨h1, h2, h3⟩ := hval.mp h
  cases hb
  exact ⟨h1, h2, h3⟩

/-- C9: the final contents of the output sequence depend only on the seed and
goal, never on whatever the output parameter held before the call. -/
theorem C9_prior_output_independent (P : ArmParams K) (T : Trig K)
    (a : ArmAnalyticalInverseKinematics K) (qInit : List K) (pIn : Pose K)
    (prev1 prev2 : List (List K)) :
    cartToJnt P T a qInit pIn prev1 = cartToJnt P T a qInit pIn prev2 := rfl

/-- C10: the solution sequence returned by `cartToJnt` contains at most 8
entries, at most one kept solution per branch-selector combination. -/
theorem C10_at_most_eight (P : ArmParams K) (T : Trig K)
    (a : ArmAnalyticalInverseKinematics K) (qInit : List K) (pIn : Pose K)
    (prev : List (List K)) :
    (cartToJnt P T a qInit pIn prev).2.length ≤ 8 := by
  rw [cartToJnt_eq]
  have h := List.length_filter_le (keepSolution a.minAngles a.maxAngles)
    (branchOrder.map fun b => ik P T (projectGoal pIn) b.1 b.2.1 b.2.2)
  simp only [List.length_map] at h
  simpa [keptSolutionsSpec, branchOrder] using h

/-- C3: for every branch, if the planar distance of the reduced target lies
outside the closed reachability annulus, the branch result is empty; and for
every pose whose reduced target lies outside the annulus for all branches,
all 8 branch results are empty and the overall status of `cartToJnt` is
negative with an empty solution sequence. -/
theorem C3_annulus_infeasible (P : ArmParams K) (T : Trig K) :
    (∀ (g : Pose K) (o1 o3 o5 : Bool),
      reducedDist P T g o1 > P.L2 + P.L3 ∨
          reducedDist P T g o1 < |P.L2 - P.L3| →
        ik P T g o1 o3 o5 = []) ∧
    ∀ (a : ArmAnalyticalInverseKinematics K) (qInit : List K) (pIn : Pose K)
      (prev : List (List K)),
      (∀ o1 : Bool, reducedDist P T (projectGoal pIn) o1 > P.L2 + P.L3 ∨
          reducedDist P T (projectGoal pIn) o1 < |P.L2 - P.L3|) →
        (∀ o1 o3 o5 : Bool, ik P T (projectGoal pIn) o1 o3 o5 = []) ∧
        (cartToJnt P T a qInit pIn prev).1 < 0 ∧
        (cartToJnt P T a qInit pIn prev).2 = [] := by
  have hik : ∀ (g : Pose K) (o1 o3 o5 : Bool),
      reducedDist P T g o1 > P.L2 + P.L3 ∨
          reducedDist P T g o1 < |P.L2 - P.L3| →
        ik P T g o1 o3 o5 = [] := by
    intro g o1 o3 o5 h
    unfold ik
    rw [if_pos h]
  refine ⟨hik, ?_⟩
  intro a qInit pIn prev h
  have hempty : ∀ o1 o3 o5 : Bool, ik P T (projectGoal pIn) o1 o3 o5 = [] :=
    fun o1 o3 o5 => hik (projectGoal pIn) o1 o3 o5 (h o1)
  have hkept : keptSolutionsSpec P T a pIn = [] := by
    unfold keptSolutionsSpec branchOrder
    simp [hempty, keepSolution]
  refine ⟨hempty, ?_, ?_⟩
  · rw [cartToJnt_eq]
    simp [hkept]
  · rw [cartToJnt_eq]
    simp [hkept]

/-- Witness for C3: a concrete far-away rational goal makes every branch
empty and the overall call fail. -/
theorem C3_annulus_infeasible_witness :
    (∀ o1 : Bool, reducedDist paramsQ trigQ (projectGoal poseFarQ) o1 >
          paramsQ.L2 + paramsQ.L3 ∨
        reducedDist paramsQ trigQ (projectGoal poseFarQ) o1 <
          |paramsQ.L2 - paramsQ.L3|) ∧
    (∀ o1 o3 o5 : Bool, ik paramsQ trigQ (projectGoal poseFarQ) o1 o3 o5 = []) ∧
    (cartToJnt paramsQ trigQ armQ [] poseFarQ []).1 < 0 ∧
    (cartToJnt paramsQ trigQ armQ [] poseFarQ []).2 = [] :=
  ⟨by
    intro o1
    cases o1 <;>
      norm_num [reducedDist, planarX, planarZ, planarRadius, projectGoal,
        paramsQ, trigQ, poseFarQ, abs_of_pos],
    (C3_annulus_infeasible paramsQ trigQ).2 armQ [] poseFarQ [] (by
      intro o1
      cases o1 <;>
        norm_num [reducedDist, planarX, planarZ, planarRadius, projectGoal,
          paramsQ, trigQ, poseFarQ, abs_of_pos])⟩

/-- C5: for a fixed pose and fixed joint-1 and joint-3 branch flags, if the
branch with the joint-5 flag clear yields a solution then so does the branch
with the joint-5 flag set; joints 1 through 4 are identical and the joint-5
values differ by exactly pi modulo 2 pi. -/
theorem C5_roll_branch_pi_shift (P : ArmParams K) (T : Trig K) (g : Pose K)
    (o1 o3 : Bool) (h : ik P T g o1 o3 false ≠ []) :
    ik P T g o1 o3 true ≠ [] ∧
    (ik P T g o1 o3 true).take 4 = (ik P T g o1 o3 false).take 4 ∧
    ∃ k : ℤ, (ik P T g o1 o3 true).getD 4 0 - (ik P T g o1 o3 false).getD 4 0
      = T.pi + 2 * T.pi * (k : K) := by
  by_cases h1 : reducedDist P T g o1 > P.L2 + P.L3 ∨
      reducedDist P T g o1 < |P.L2 - P.L3|
  · exact absurd (by unfold ik; rw [if_pos h1]) h
  by_cases h2 : cosElbow P T g o1 > 1 + P.acosTol ∨
      cosElbow P T g o1 < -(1 + P.acosTol)
  · exact absurd (by unfold ik; rw [if_neg h1, if_pos h2]) h
  have e : ∀ o5 : Bool, ik P T g o1 o3 o5 =
      [if o1 then T.atan2 g.y g.x + T.pi else T.atan2 g.y g.x,
       T.atan2 (planarX P T g o1) (planarZ P T g) -
         elbowSign o3 * T.acos (clampCos P (cosShoulder P T g o1)),
       elbowSign o3 * T.acos (clampCos P (cosElbow P T g o1)),
       g.pitch - (T.atan2 (planarX P T g o1) (planarZ P T g) -
         elbowSign o3 * T.acos (clampCos P (cosShoulder P T g o1)) +
         elbowSign o3 * T.acos (clampCos P (cosElbow P T g o1))),
       if o5 then g.roll + T.pi else g.roll] := by
    intro o5
    unfold ik
    rw [if_neg h1, if_neg h2]
  rw [e true, e false]
  refine ⟨by simp, by simp, 0, ?_⟩
  simp [List.getD]

/-- Witness for C5: a concrete reachable rational goal evaluated under the
test interpretation. -/
theorem C5_roll_branch_pi_shift_witness :
    ik paramsQ trigQ poseNearQ false false false ≠ [] ∧
    (ik paramsQ trigQ poseNearQ false false true ≠ [] ∧
      (ik paramsQ trigQ poseNearQ false false true).take 4 =
        (ik paramsQ trigQ poseNearQ false false false).take 4 ∧
      ∃ k : ℤ, (ik paramsQ trigQ poseNearQ false false true).getD 4 0 -
          (ik paramsQ trigQ poseNearQ false false false).getD 4 0
        = trigQ.pi + 2 * trigQ.pi * (k : ℚ)) :=
  ⟨by
    norm_num [ik, reducedDist, planarX, planarZ, planarRadius, cosElbow,
      paramsQ, trigQ, poseNearQ, abs_of_pos]
    exact List.cons_ne_nil _ _,
    C5_roll_branch_pi_shift paramsQ trigQ poseNearQ false false (by
      norm_num [ik, reducedDist, planarX, planarZ, planarRadius, cosElbow,
        paramsQ, trigQ, poseNearQ, abs_of_pos]
      exact List.cons_ne_nil _ _)⟩

/-- At planar distance exactly L2 + L3 the law-of-cosines argument is exactly
1; it is clamped to `almostPlusOne` and the branch succeeds with elbow angle
`elbowSign * acos almostPlusOne`. -/
theorem ik_boundary_upper (P : ArmParams K) (T : Trig K) (g : Pose K)
    (o1 o3 o5 : Bool) (hL2 : 0 < P.L2) (hL3 : 0 < P.L3)
    (hAP : P.almostPlusOne < 1) (htol : 0 ≤ P.acosTol)
    (hD : reducedDist P T g o1 = P.L2 + P.L3) :
    ik P T g o1 o3 o5 ≠ [] ∧
    cosElbow P T g o1 = 1 ∧
    clampCos P (cosElbow P T g o1) = P.almostPlusOne ∧
    (ik P T g o1 o3 o5).getD 2 0 = elbowSign o3 * T.acos P.almostPlusOne := by
  have habs : |P.L2 - P.L3| < P.L2 + P.L3 := by
    rw [abs_lt]
    constructor <;> linarith
  have h2ne : (2 : K) * P.L2 * P.L3 ≠ 0 := by positivity
  have hcos : cosElbow P T g o1 = 1 := by
    unfold cosElbow
    rw [hD, div_eq_one_iff_eq h2ne]
    ring
  have hc1 : ¬(reducedDist P T g o1 > P.L2 + P.L3 ∨
      reducedDist P T g o1 < |P.L2 - P.L3|) := by
    rw [hD]
    push_neg
    exact ⟨le_refl _, le_of_lt habs⟩
  have hc2 : ¬(cosElbow P T g o1 > 1 + P.acosTol ∨
      cosElbow P T g o1 < -(1 + P.acosTol)) := by
    rw [hcos]
    push_neg
    constructor <;> linarith
  have hclamp : clampCos P (cosElbow P T g o1) = P.almostPlusOne := by
    rw [hcos]
    unfold clampCos
    rw [if_pos hAP]
  have hik : ik P T g o1 o3 o5 =
      [if o1 then T.atan2 g.y g.x + T.pi else T.atan2 g.y g.x,
       T.atan2 (planarX P T g o1) (planarZ P T g) -
         elbowSign o3 * T.acos (clampCos P (cosShoulder P T g o1)),
       elbowSign o3 * T.acos (clampCos P (cosElbow P T g o1)),
       g.pitch - (T.atan2 (planarX P T g o1) (planarZ P T g) -
         elbowSign o3 * T.acos (clampCos P (cosShoulder P T g o1)) +
         elbowSign o3 * T.acos (clampCos P (cosElbow P T g o1))),
       if o5 then g.roll + T.pi else g.roll] := by
    unfold ik
    rw [if_neg hc1, if_neg hc2]
  refine ⟨by rw [hik]; simp, hcos, hclamp, ?_⟩
  rw [hik]
  simp [List.getD, hclamp]

/-- At planar distance exactly |L2 - L3| the law-of-cosines argument is
exactly -1; it is clamped to `almostMinusOne` and the branch succeeds with
elbow angle `elbowSign * acos almostMinusOne`. -/
theorem ik_boundary_lower (P : ArmParams K) (T : Trig K) (g : Pose K)
    (o1 o3 o5 : Bool) (hL2 : 0 < P.L2) (hL3 : 0 < P.L3)
    (hAP : P.almostPlusOne < 1) (hAM : -1 < P.almostMinusOne)
    (hord : P.almostMinusOne ≤ P.almostPlusOne) (htol : 0 ≤ P.acosTol)
    (hD : reducedDist P T g o1 = |P.L2 - P.L3|) :
    ik P T g o1 o3 o5 ≠ [] ∧
    cosElbow P T g o1 = -1 ∧
    clampCos P (cosElbow P T g o1) = P.almostMinusOne ∧
    (ik P T g o1 o3 o5).getD 2 0 = elbowSign o3 * T.acos P.almostMinusOne := by
  have habs : |P.L2 - P.L3| < P.L2 + P.L3 := by
    rw [abs_lt]
    constructor <;> linarith
  have h2ne : (2 : K) * P.L2 * P.L3 ≠ 0 := by positivity
  have hcos : cosElbow P T g o1 = -1 := by
    unfold cosElbow
    rw [hD, sq_abs, div_eq_iff h2ne]
    ring
  have hc1 : ¬(reducedDist P T g o1 > P.L2 + P.L3 ∨
      reducedDist P T g o1 < |P.L2 - P.L3|) := by
    rw [hD]
    push_neg
    exact ⟨le_of_lt habs, le_refl _⟩
  have hc2 : ¬(cosElbow P T g o1 > 1 + P.acosTol ∨
      cosElbow P T g o1 < -(1 + P.acosTol)) := by
    rw [hcos]
    push_neg
    constructor <;> linarith
  have hclamp : clampCos P (cosElbow P T g o1) = P.almostMinusOne := by
    rw [hcos]
    unfold clampCos
    rw [if_neg (by push_neg; linarith), if_pos hAM]
  have hik : ik P T g o1 o3 o5 =
      [if o1 then T.atan2 g.y g.x + T.pi else T.atan2 g.y g.x,
       T.atan2 (planarX P T g o1) (planarZ P T g) -
         elbowSign o3 * T.acos (clampCos P (cosShoulder P T g o1)),
       elbowSign o3 * T.acos (clampCos P (cosElbow P T g o1)),
       g.pitch - (T.atan2 (planarX P T g o1) (planarZ P T g) -
         elbowSign o3 * T.acos (clampCos P (cosShoulder P T g o1)) +
         elbowSign o3 * T.acos (clampCos P (cosElbow P T g o1))),
       if o5 then g.roll + T.pi else g.roll] := by
    unfold ik
    rw [if_neg hc1, if_neg hc2]
  refine ⟨by rw [hik]; simp, hcos, hclamp, ?_⟩
  rw [hik]
  simp [List.getD, hclamp]

/-- Witness for C4: a concrete all-zero solution inside the concrete limits
is accepted. -/
theorem C4_isSolutionValid_iff_witness :
    isSolutionValid armQ.minAngles armQ.maxAngles
      ([0, 0, 0, 0, 0] : List ℚ) = true :=
  (C4_isSolutionValid_iff armQ.minAngles armQ.maxAngles [0, 0, 0, 0, 0]).1.mpr
    (by
      refine ⟨by norm_num [armQ], ?_⟩
      intro i hi
      interval_cases i <;> norm_num [armQ])

/-- Witness for C8: the concrete valid limit sequences are accepted. -/
theorem C8_construction_guard_witness :
    (construct armQ.minAngles armQ.maxAngles).isSome = true :=
  (C8_construction_guard armQ.minAngles armQ.maxAngles).1.mpr
    (by
      refine ⟨by norm_num [armQ], by norm_num [armQ], ?_⟩
      intro i hi
      interval_cases i <;> norm_num [armQ])

/-- C6 (amended): at planar distance exactly L2 + L3 the solver does not
declare a domain failure: the inverse-cosine argument, exactly 1, is clamped
to ALMOST_PLUS_ONE, a constant strictly inside [-1, 1], and the branch
succeeds with elbow angle elbowSign * acos ALMOST_PLUS_ONE — approximately,
but not exactly, the fully extended elbow angle 0; symmetrically, distance
exactly |L2 - L3| is not a domain failure and the elbow angle is
elbowSign * acos ALMOST_MINUS_ONE, approximately the fully folded elbow. -/
theorem C6_boundary_clamped (P : ArmParams K) (T : Trig K) (g : Pose K)
    (o1 o3 o5 : Bool) (hL2 : 0 < P.L2) (hL3 : 0 < P.L3)
    (hAP : P.almostPlusOne < 1) (hAM : -1 < P.almostMinusOne)
    (hord : P.almostMinusOne ≤ P.almostPlusOne) (htol : 0 ≤ P.acosTol) :
    (reducedDist P T g o1 = P.L2 + P.L3 →
      ik P T g o1 o3 o5 ≠ [] ∧
      cosElbow P T g o1 = 1 ∧
      clampCos P (cosElbow P T g o1) = P.almostPlusOne ∧
      (ik P T g o1 o3 o5).getD 2 0 = elbowSign o3 * T.acos P.almostPlusOne) ∧
    (reducedDist P T g o1 = |P.L2 - P.L3| →
      ik P T g o1 o3 o5 ≠ [] ∧
      cosElbow P T g o1 = -1 ∧
      clampCos P (cosElbow P T g o1) = P.almostMinusOne ∧
      (ik P T g o1 o3 o5).getD 2 0 = elbowSign o3 * T.acos P.almostMinusOne) :=
  ⟨fun hD => ik_boundary_upper P T g o1 o3 o5 hL2 hL3 hAP htol hD,
   fun hD => ik_boundary_lower P T g o1 o3 o5 hL2 hL3 hAP hAM hord htol hD⟩

/-- Witness for the amended C6 at a concrete rational boundary goal. -/
theorem C6_boundary_clamped_witness :
    (0 : ℚ) < paramsQ.L2 ∧
    reducedDist paramsQ trigQ poseEdgeQ false = paramsQ.L2 + paramsQ.L3 ∧
    ik paramsQ trigQ poseEdgeQ false false false ≠ [] ∧
    clampCos paramsQ (cosElbow paramsQ trigQ poseEdgeQ false) =
      paramsQ.almostPlusOne :=
  ⟨by norm_num [paramsQ],
   by norm_num [reducedDist, planarX, planarZ, planarRadius, paramsQ, trigQ,
     poseEdgeQ],
   (((C6_boundary_clamped paramsQ trigQ poseEdgeQ false false false
        (by norm_num [paramsQ]) (by norm_num [paramsQ]) (by norm_num [paramsQ])
        (by norm_num [paramsQ]) (by norm_num [paramsQ])
        (by norm_num [paramsQ])).1
      (by norm_num [reducedDist, planarX, planarZ, planarRadius, paramsQ,
        trigQ, poseEdgeQ])).1),
   (((C6_boundary_clamped paramsQ trigQ poseEdgeQ false false false
        (by norm_num [paramsQ]) (by norm_num [paramsQ]) (by norm_num [paramsQ])
        (by norm_num [paramsQ]) (by norm_num [paramsQ])
        (by norm_num [paramsQ])).1
      (by norm_num [reducedDist, planarX, planarZ, planarRadius, paramsQ,
        trigQ, poseEdgeQ])).2.2.1)⟩

/-- C6 counterexample: under real arccos, at planar distance exactly
L2 + L3 the branch succeeds, but the elbow angle equals
arccos ALMOST_PLUS_ONE, which is strictly positive — not the claimed exact 0. -/
theorem C6_elbow_not_zero_counterexample :
    reducedDist paramsR realTrig poseEdgeR false = paramsR.L2 + paramsR.L3 ∧
    ik paramsR realTrig poseEdgeR false false false ≠ [] ∧
    (ik paramsR realTrig poseEdgeR false false false).getD 2 0 ≠ 0 := by
  have hsqrt4 : Real.sqrt 4 = 2 := by
    rw [show (4 : ℝ) = 2 ^ 2 by norm_num]
    exact Real.sqrt_sq (by norm_num)
  have hx : planarX paramsR realTrig poseEdgeR false = 2 := by
    unfold planarX planarRadius
    simp [realTrig, poseEdgeR, paramsR]
  have hz : planarZ paramsR realTrig poseEdgeR = 0 := by
    simp [planarZ, paramsR, poseEdgeR]
  have hD : reducedDist paramsR realTrig poseEdgeR false =
      paramsR.L2 + paramsR.L3 := by
    unfold reducedDist
    rw [hx, hz]
    simp [realTrig, paramsR]
    norm_num [hsqrt4]
  obtain ⟨hne, hcos, hclamp, hval⟩ :=
    ik_boundary_upper paramsR realTrig poseEdgeR false false false
      (by norm_num [paramsR]) (by norm_num [paramsR]) (by norm_num [paramsR])
      (by norm_num [paramsR]) hD
  refine ⟨hD, hne, ?_⟩
  rw [hval]
  simp only [elbowSign, if_neg (by simp : ¬(false = true)), one_mul]
  show Real.arccos paramsR.almostPlusOne ≠ 0
  exact ne_of_gt (Real.arccos_pos.mpr (by norm_num [paramsR]))

end YoubotKinematics
